import Mathlib

/-!
# FlashPay — verification of the unified payment store and its guard layer

A shallow embedding of the FlashPay client (src/lib/unified-store.ts,
src/lib/security.ts, src/lib/operations.ts) in Lean 4, together with
theorems settling the frozen specification claims.

Modelling conventions:
* JS numbers that hold monetary amounts are modelled as exact rationals;
  an input amount denotes the exact rational value determined by the
  number's shortest decimal representation (the digit string that
  `Number.prototype.toString` is built from).  The validator's
  `toString`-based fractional-digit counting is modelled by
  `jsDecimalPlaces`, which follows the ECMAScript `Number::toString`
  notation rules — plain decimal notation for exponents in `(-6, 21]` and
  exponential notation outside, where the counted "digits" are the
  characters after the first `.`, mantissa-rest plus the `e±dd` suffix.
* Timestamps (Date.now(), Date objects, lastUpdated) are integers.
* JS objects used as string-keyed maps are association lists; property
  assignment replaces the first binding with the key or appends a new one.
* Randomly generated identifiers and clock reads are passed in as explicit
  parameters; the error tracker's random tracking ids are modelled by a
  deterministic counter (the claims only depend on a tracking id being
  present, never on its text).
* Methods that mutate `this.state` become functions from state to state;
  methods that also return a value return a pair.
-/

namespace FlashPay

/-- `PaymentStatus` from src/lib/types.ts. -/
inductive PaymentStatus where
  | PENDING
  | PAID
  | FAILED
  | CANCELLED
deriving DecidableEq, Repr

/-- `Payment` from src/lib/types.ts.  `createdAt`/`paidAt` are epoch
milliseconds; optional fields are `Option`. -/
structure Payment where
  id : String
  merchantId : String
  amount : ℚ
  note : String
  status : PaymentStatus
  createdAt : Int
  paidAt : Option Int := none
  txid : Option String := none
deriving DecidableEq, Repr

/-- `DomainState` from src/lib/unified-store.ts: the master toggle plus the
per-domain flag record (`Record<string, boolean>` as an association list). -/
structure DomainState where
  masterEnabled : Bool
  domains : List (String × Bool)
deriving DecidableEq, Repr

/-- Read a key of a JS `Record<string, boolean>`: value of the first binding
with the key, if any. -/
def DomainState.lookup (ds : DomainState) (domainId : String) : Option Bool :=
  (ds.domains.find? (fun kv => kv.fst = domainId)).map Prod.snd

/-- Write a key of a JS `Record<string, boolean>`: replace the first binding
with the key, or append a fresh binding. -/
def setFlag : List (String × Bool) → String → Bool → List (String × Bool)
  | [], domainId, b => [(domainId, b)]
  | kv :: rest, domainId, b =>
      if kv.fst = domainId then (domainId, b) :: rest
      else kv :: setFlag rest domainId b

/-- The slice of `UnifiedState` (src/lib/unified-store.ts) that the verified
operations read or write: the payment ledger, the domain toggles, the two
merchant-identity fields, and the `lastUpdated` version counter.  The
remaining sections (wallet, ui, `_owner`, version string) are never
consulted by the operations under verification. -/
structure UnifiedState where
  payments : List Payment
  domainState : DomainState
  /-- `session.currentMerchantId`; the empty string is JS-falsy "unset". -/
  currentMerchantId : String
  /-- `merchant.merchantId`. -/
  merchantId : String
  lastUpdated : Int
deriving DecidableEq, Repr

namespace UnifiedState

/-- The expression `this.state.session.currentMerchantId ||
this.state.merchant.merchantId` used by every merchant-scoped method:
JS `||` falls through on the empty (falsy) string. -/
def activeMerchantId (st : UnifiedState) : String :=
  if st.currentMerchantId = "" then st.merchantId else st.currentMerchantId

/-- `UnifiedStateStore.getPayment` (unified-store.ts:483-497): first record
with the id; a record owned by another merchant is blocked (undefined). -/
def getPayment (st : UnifiedState) (id : String) : Option Payment :=
  match st.payments.find? (fun p => p.id = id) with
  | none => none
  | some p => if p.merchantId ≠ st.activeMerchantId then none else some p

/-- `UnifiedStateStore.getAllPayments` (unified-store.ts:499-504): records of
the active merchant, sorted by `createdAt` descending. -/
def getAllPayments (st : UnifiedState) : List Payment :=
  (st.payments.filter (fun p => p.merchantId = st.activeMerchantId)).mergeSort
    (fun a b => b.createdAt ≤ a.createdAt)

/-- `UnifiedStateStore.createPayment` (unified-store.ts:393-426): builds a
PENDING record scoped to the active merchant and unshifts it onto the
ledger.  The generated id and the clock read are explicit parameters; the
`processingLocks` entry is inserted and removed within the same call, so it
is invisible to sequential callers. -/
def createPayment (st : UnifiedState) (id : String) (amount : ℚ) (note : String)
    (now : Int) : Payment × UnifiedState :=
  let payment : Payment :=
    { id := id, merchantId := st.activeMerchantId, amount := amount, note := note,
      status := .PENDING, createdAt := now }
  (payment, { st with payments := payment :: st.payments })

/-- `UnifiedStateStore.createPaymentWithId` (unified-store.ts:428-461): like
`createPayment` but with a backend-issued id and creation time; the new
record is unshifted unconditionally — there is no lookup of an existing
record with the same id. -/
def createPaymentWithId (st : UnifiedState) (id : String) (amount : ℚ)
    (note : String) (createdAt : Int) : Payment × UnifiedState :=
  let payment : Payment :=
    { id := id, merchantId := st.activeMerchantId, amount := amount, note := note,
      status := .PENDING, createdAt := createdAt }
  (payment, { st with payments := payment :: st.payments })

/-- `UnifiedStateStore.addPayment` (unified-store.ts:463-481): skip when a
record with the same id exists, otherwise unshift. -/
def addPayment (st : UnifiedState) (payment : Payment) : UnifiedState :=
  if (st.payments.find? (fun p => p.id = payment.id)).isSome then st
  else { st with payments := payment :: st.payments }

/-- Replace the first record carrying the id (the object aliasing of
`payments.find(...)` followed by in-place mutation). -/
def replaceFirstById : List Payment → String → Payment → List Payment
  | [], _, _ => []
  | q :: rest, id, p =>
      if q.id = id then p :: rest else q :: replaceFirstById rest id p

/-- `UnifiedStateStore.updatePaymentStatus` (unified-store.ts:506-532):
resolve through the merchant-scoped `getPayment`; refuse when absent or
already PAID; otherwise write the status and, on PAID, stamp `paidAt` and
`txid` on the resolved record. -/
def updatePaymentStatus (st : UnifiedState) (id : String) (status : PaymentStatus)
    (txid : Option String) (now : Int) : Bool × UnifiedState :=
  match st.getPayment id with
  | none => (false, st)
  | some p =>
      if p.status = .PAID then (false, st)
      else
        let p := { p with
          status := status,
          paidAt := if status = .PAID then some now else p.paidAt,
          txid := if status = .PAID then txid else p.txid }
        (true, { st with payments := replaceFirstById st.payments id p })

/-- The record returned by `UnifiedStateStore.getPaymentStats`. -/
structure PaymentStats where
  totalPayments : ℕ
  paidPayments : ℕ
  pendingPayments : ℕ
  failedPayments : ℕ
  cancelledPayments : ℕ
  totalAmount : ℚ
  conversionRate : ℚ
deriving DecidableEq, Repr

/-- `UnifiedStateStore.getPaymentStats` (unified-store.ts:534-553):
status counts and paid-amount sum over the active merchant's records;
`conversionRate = paid/total*100`, 0 on an empty ledger. -/
def getPaymentStats (st : UnifiedState) : PaymentStats :=
  let all := st.payments.filter (fun p => p.merchantId = st.activeMerchantId)
  let paid := all.filter (fun p => p.status = .PAID)
  let pending := all.filter (fun p => p.status = .PENDING)
  let failed := all.filter (fun p => p.status = .FAILED)
  let cancelled := all.filter (fun p => p.status = .CANCELLED)
  let totalAmount := (paid.map (fun p => p.amount)).sum
  let conversionRate : ℚ :=
    if 0 < all.length then ((paid.length : ℚ) / (all.length : ℚ)) * 100 else 0
  { totalPayments := all.length, paidPayments := paid.length,
    pendingPayments := pending.length, failedPayments := failed.length,
    cancelledPayments := cancelled.length, totalAmount := totalAmount,
    conversionRate := conversionRate }

/-- `UnifiedStateStore.isMasterEnabled` (unified-store.ts:657-659). -/
def isMasterEnabled (st : UnifiedState) : Bool :=
  st.domainState.masterEnabled

/-- `UnifiedStateStore.setMasterEnabled` (unified-store.ts:661-666). -/
def setMasterEnabled (st : UnifiedState) (enabled : Bool) : UnifiedState :=
  { st with domainState := { st.domainState with masterEnabled := enabled } }

/-- `UnifiedStateStore.isDomainEnabled` (unified-store.ts:668-670):
`this.state.domainState.domains[domainId] ?? false`. -/
def isDomainEnabled (st : UnifiedState) (domainId : String) : Bool :=
  (st.domainState.lookup domainId).getD false

/-- `UnifiedStateStore.setDomainEnabled` (unified-store.ts:672-683): refused
while the master toggle is off, otherwise writes the per-domain flag. -/
def setDomainEnabled (st : UnifiedState) (domainId : String) (enabled : Bool) :
    Bool × UnifiedState :=
  if ¬ st.domainState.masterEnabled then (false, st)
  else
    (true, { st with domainState :=
      { st.domainState with domains := setFlag st.domainState.domains domainId enabled } })

/-- The storage-event handler installed by
`UnifiedStateStore.setupCrossTabSync` (unified-store.ts:305-339): an
incoming snapshot replaces the local state only when its `lastUpdated` is
strictly greater; otherwise it is discarded. -/
def applyExternalSnapshot (loc incoming : UnifiedState) : UnifiedState :=
  if loc.lastUpdated < incoming.lastUpdated then incoming else loc

end UnifiedState

/-! ## Security layer (src/lib/security.ts) -/

/-- `OPERATIONAL_FLAGS` from src/lib/security.ts. -/
def TESTNET_ONLY : Bool := true
/-- `OPERATIONAL_FLAGS.REQUIRE_WALLET`. -/
def REQUIRE_WALLET : Bool := true
/-- `OPERATIONAL_FLAGS.REQUIRE_DOMAIN_ENABLED`. -/
def REQUIRE_DOMAIN_ENABLED : Bool := true
/-- `OPERATIONAL_FLAGS.REQUIRE_MASTER_ENABLED` — the master toggle does not
block the primary payment operations. -/
def REQUIRE_MASTER_ENABLED : Bool := false
/-- `OPERATIONAL_FLAGS.ENABLE_RATE_LIMITING`. -/
def ENABLE_RATE_LIMITING : Bool := true

/-- `RateLimitConfig` from src/lib/security.ts. -/
structure RateLimitConfig where
  maxAttempts : ℕ
  windowMs : Int
deriving DecidableEq, Repr

/-- The pair returned by `RateLimiter.check`. -/
structure RateCheckResult where
  allowed : Bool
  remainingAttempts : ℕ
deriving DecidableEq, Repr

namespace RateLimiter

/-- `RateLimiter.check` (security.ts:119-144) for one key: keep the recorded
timestamps strictly inside the window `(now - windowMs, now]`, allow while
fewer than `maxAttempts` survive, and push `now` only on an allowed
attempt.  `remainingAttempts = max 0 (maxAttempts - attempts)` is taken
after the push (truncated subtraction plays the role of `Math.max 0`);
the source's local boolean `allowed` is inlined as the branch split.
Returns the result together with the key's new timestamp list. -/
def check (attempts : List Int) (cfg : RateLimitConfig) (now : Int) :
    RateCheckResult × List Int :=
  if ¬ ENABLE_RATE_LIMITING then
    ({ allowed := true, remainingAttempts := cfg.maxAttempts }, attempts)
  else
    let windowStart := now - cfg.windowMs
    let recent := attempts.filter (fun t => windowStart < t)
    if recent.length < cfg.maxAttempts then
      ({ allowed := true,
         remainingAttempts := cfg.maxAttempts - (recent ++ [now]).length },
        recent ++ [now])
    else
      ({ allowed := false, remainingAttempts := cfg.maxAttempts - recent.length },
        recent)

/-- Run a sequence of `check` calls for one key, collecting each call's
`allowed` verdict and threading the timestamp list. -/
def run (cfg : RateLimitConfig) (attempts : List Int) :
    List Int → List Bool × List Int
  | [] => ([], attempts)
  | t :: ts =>
      let step := check attempts cfg t
      let rest := run cfg step.snd ts
      (step.fst.allowed :: rest.fst, rest.snd)

end RateLimiter

/-- The `{ valid, error? }` record returned by the input validators. -/
structure ValidationResult where
  valid : Bool
  error : Option String := none
deriving DecidableEq, Repr

/-- Largest `k` with `p ^ k ∣ n` (0 for `p ≤ 1` or `n ≤ 1`), by repeated
division; the fuel argument makes the recursion structural so that the
kernel can evaluate it. -/
def countFactorsAux (p : ℕ) : ℕ → ℕ → ℕ
  | 0, _ => 0
  | fuel + 1, n =>
      if 1 < p ∧ 1 < n ∧ n % p = 0 then countFactorsAux p fuel (n / p) + 1 else 0

/-- Multiplicity of the prime `p` in `n`. -/
def countFactors (p n : ℕ) : ℕ := countFactorsAux p n n

/-- The mathematical fractional-digit count of a decimal-valued amount:
the least `k` with `q * 10 ^ k` integral, which for a reduced fraction is
`max (v2 q.den) (v5 q.den)` where `vp` is the multiplicity of `p`.  This
is the notion the specification's words "at most 7 fractional digits"
denote; the count the CODE computes from `amount.toString().split(".")`
is `jsDecimalPlaces` below, and the two differ on amounts that
`toString` renders in exponential notation. -/
def decimalDigits (q : ℚ) : ℕ :=
  max (countFactors 2 q.den) (countFactors 5 q.den)

/-- Number of decimal digits of a natural number ("0" has one digit); the
fuel argument makes the recursion structural for kernel evaluation. -/
def numDigitsAux : ℕ → ℕ → ℕ
  | 0, _ => 1
  | fuel + 1, n => if n < 10 then 1 else numDigitsAux fuel (n / 10) + 1

/-- Number of decimal digits of a natural number. -/
def numDigits (n : ℕ) : ℕ := numDigitsAux n n

/-- The count `(amount.toString().split(".")[1] || "").length` computed by
`InputValidator.validateAmount`, modelled after ECMAScript
`Number::toString`: write the amount's magnitude as `s * 10 ^ (n - k)`
with `s` the trailing-zero-free significand, `k` its digit count and `n`
the decimal-point position.  For `-6 < n ≤ 21` the rendering is plain
decimal and the count is the fractional-digit count (`d - z` below, with
`d` the scale and `z` the stripped trailing zeros); otherwise the
rendering is exponential (`"1e-8"`, `"2.5e-7"`, `"1.5e+21"`): a one-digit
significand has no `.` at all (count 0), and otherwise the characters
after the `.` are the remaining `k - 1` significand digits plus the
`e`, the sign and the exponent digits.  Amounts that are not
decimal-valued do not arise as JS number inputs; for them the `m = 0`
guard returns 0. -/
def jsDecimalPlaces (q : ℚ) : ℕ :=
  let d := max (countFactors 2 q.den) (countFactors 5 q.den)
  let m := q.num.natAbs * 10 ^ d / q.den
  if m = 0 then 0
  else
    let z := min (countFactors 2 m) (countFactors 5 m)
    let k := numDigits (m / 10 ^ z)
    let n : Int := (k : Int) + (z : Int) - (d : Int)
    if -6 < n ∧ n ≤ 21 then d - z
    else if k = 1 then 0
    else (k - 1) + 2 + numDigits (n - 1).natAbs

namespace InputValidator

/-- `InputValidator.validateAmount` (security.ts:164-188).  The `typeof`,
`isNaN` and `Number.isFinite` guards never fire on the rational embedding
domain (every embedded amount is a finite numeric value), leaving the
positivity, upper-bound and decimal-place checks in source order; the
decimal-place count is the `toString`-based `jsDecimalPlaces`. -/
def validateAmount (amount : ℚ) : ValidationResult :=
  if amount ≤ 0 then
    { valid := false, error := some "Amount must be greater than zero" }
  else if 1000000 < amount then
    { valid := false, error := some "Amount exceeds maximum limit (1,000,000 Pi)" }
  else if 7 < jsDecimalPlaces amount then
    { valid := false, error := some "Amount cannot have more than 7 decimal places" }
  else
    { valid := true }

/-- `InputValidator.validateNote` (security.ts:190-200); the `typeof` guard
never fires on the string embedding domain. -/
def validateNote (note : String) : ValidationResult :=
  if 500 < note.length then
    { valid := false, error := some "Note cannot exceed 500 characters" }
  else
    { valid := true }

/-- `InputValidator.validatePaymentId` (security.ts:202-212). -/
def validatePaymentId (id : String) : ValidationResult :=
  if id.trim.length = 0 then
    { valid := false, error := some "Payment ID is required" }
  else if 100 < id.length then
    { valid := false, error := some "Payment ID is invalid" }
  else
    { valid := true }

end InputValidator

/-- `SecurityCheck` without the random tracking id (tracking ids surfaced to
callers are minted by the error tracker, modelled below by a counter). -/
structure SecurityCheck where
  passed : Bool
  reason : Option String := none
deriving DecidableEq, Repr

namespace SecurityGuard

/-- `SecurityGuard.checkMasterToggle` (security.ts:282-302). -/
def checkMasterToggle (st : UnifiedState) : SecurityCheck :=
  if ¬ REQUIRE_MASTER_ENABLED then { passed := true }
  else if ¬ st.isMasterEnabled then
    { passed := false,
      reason := some "System maintenance in progress. Please try again later." }
  else { passed := true }

/-- `SecurityGuard.checkDomainAccess` (security.ts:257-277). -/
def checkDomainAccess (st : UnifiedState) (domainId : String) : SecurityCheck :=
  if ¬ REQUIRE_DOMAIN_ENABLED then { passed := true }
  else if ¬ st.isDomainEnabled domainId then
    { passed := false,
      reason := some ("This service (" ++ domainId ++
        ") is currently disabled. Please contact support.") }
  else { passed := true }

/-- `SecurityGuard.preOperationCheck` (security.ts:307-333) with a domain
id supplied: master toggle first, then domain access. -/
def preOperationCheck (st : UnifiedState) (domainId : String) : SecurityCheck :=
  let masterCheck := checkMasterToggle st
  if ¬ masterCheck.passed then masterCheck
  else
    let domainCheck := checkDomainAccess st domainId
    if ¬ domainCheck.passed then domainCheck
    else { passed := true }

end SecurityGuard

/-! ## Payment orchestrator (src/lib/operations.ts) -/

/-- `OperationResult<Payment>` from src/lib/operations.ts. -/
structure OperationResult where
  success : Bool
  data : Option Payment := none
  error : Option String := none
  trackingId : Option String := none
deriving DecidableEq, Repr

/-- `RATE_LIMITS.CREATE_PAYMENT`. -/
def CREATE_PAYMENT_LIMIT : RateLimitConfig := { maxAttempts := 10, windowMs := 60000 }

/-- The mutable context the orchestrator touches: the unified store, the
rate limiter's timestamp list for the `create_payment` key, and the error
tracker (modelled by the count of errors logged so far, which also seeds
the deterministic tracking ids). -/
structure OrchestratorState where
  store : UnifiedState
  rlAttempts : List Int
  errorsLogged : ℕ
deriving DecidableEq, Repr

/-- `errorTracker.logError`: mint a tracking id and record the error entry
(modelled by bumping the counter). -/
def logError (errorsLogged : ℕ) : String × ℕ :=
  ("TRK-" ++ toString errorsLogged, errorsLogged + 1)

/-- What the `fetch` of `POST /api/payments` produced, as seen from the
`try` block of `createPayment`: either the thrown error's message
(non-`ok` status, non-JSON body or a rejected promise) or the
backend-issued payment id and creation time. -/
def ProviderOutcome : Type := Except String (String × Int)

/-- `createPayment` (operations.ts:46-182): rate limit, amount validation,
note validation, `preOperationCheck` with the `flashpay` domain — each
failure logged with a fresh tracking id and returned as a structured
result — then the provider call; on provider failure the catch block
returns a structured failure and the ledger is never written; on success
the record is written through `createPaymentWithId` (the audit entry and
the best-effort localStorage mirror carry no verified state). -/
def createPayment (os : OrchestratorState) (now : Int) (amount : ℚ) (note : String)
    (provider : ProviderOutcome) : OperationResult × OrchestratorState :=
  let rl := RateLimiter.check os.rlAttempts CREATE_PAYMENT_LIMIT now
  let os := { os with rlAttempts := rl.snd }
  if ¬ rl.fst.allowed then
    let log := logError os.errorsLogged
    ({ success := false, error := some "Too many requests. Please wait a moment.",
       trackingId := some log.fst },
      { os with errorsLogged := log.snd })
  else
    let amountValidation := InputValidator.validateAmount amount
    if ¬ amountValidation.valid then
      let log := logError os.errorsLogged
      ({ success := false, error := amountValidation.error, trackingId := some log.fst },
        { os with errorsLogged := log.snd })
    else
      let noteValidation := InputValidator.validateNote note
      if ¬ noteValidation.valid then
        let log := logError os.errorsLogged
        ({ success := false, error := noteValidation.error, trackingId := some log.fst },
          { os with errorsLogged := log.snd })
      else
        let securityCheck := SecurityGuard.preOperationCheck os.store "flashpay"
        if ¬ securityCheck.passed then
          let log := logError os.errorsLogged
          ({ success := false, error := securityCheck.reason, trackingId := some log.fst },
            { os with errorsLogged := log.snd })
        else
          match provider with
          | .error e =>
              let log := logError os.errorsLogged
              ({ success := false, error := some e, trackingId := some log.fst },
                { os with errorsLogged := log.snd })
          | .ok issued =>
              let created := os.store.createPaymentWithId issued.fst amount note issued.snd
              ({ success := true, data := some created.fst,
                 trackingId := some ("AUD-" ++ toString os.errorsLogged) },
                { os with store := created.snd })

/-! ## Shared states and helper lemmas -/

/-- A freshly set-up store for merchant `m`: `DEFAULT_STATE` with the ledger
empty, the master toggle off, and the per-domain flags seeded from
`OPERATIONAL_DOMAINS` (the single `flashpay` domain, `enabled: true`). -/
def freshStore (m : String) : UnifiedState :=
  { payments := [],
    domainState := { masterEnabled := false, domains := [("flashpay", true)] },
    currentMerchantId := m, merchantId := m, lastUpdated := 0 }

/-- Updating the payment ledger leaves the active merchant unchanged. -/
theorem activeMerchantId_payments_update (st : UnifiedState) (ps : List Payment) :
    UnifiedState.activeMerchantId { st with payments := ps } = st.activeMerchantId := rfl

/-- Under the merchant-scoped lookup, `getPayment` only ever surfaces a
record that the raw lookup found. -/
theorem getPayment_eq_some (st : UnifiedState) (id : String) (r : Payment)
    (h : st.getPayment id = some r) :
    st.payments.find? (fun q => q.id = id) = some r ∧
    r.merchantId = st.activeMerchantId := by
  unfold UnifiedState.getPayment at h
  cases hfind : st.payments.find? (fun q => q.id = id) with
  | none => rw [hfind] at h; exact absurd h (by simp)
  | some q =>
      rw [hfind] at h
      by_cases hm : q.merchantId ≠ st.activeMerchantId
      · simp [hm] at h
      · simp [hm] at h
        subst h
        exact ⟨rfl, not_not.mp hm⟩

/-! ## Claims -/

/-- C1: for every stored payment whose status is PAID, a call to
`updatePaymentStatus(id, newStatus, txid?)` returns false and mutates
nothing — the resulting state equals the old state exactly, so in
particular the payment's status, `paidAt` and `txid` are untouched, for
every choice of `newStatus`, `txid` and clock reading.  The side condition
`hallPaid` pins the stored payment down through the id-keyed lookup the
method performs: every ledger record carrying this id is PAID (with the
id-unique ledgers the store produces, that is exactly "the stored payment
with this id is PAID"). -/
theorem updatePaymentStatus_already_paid (st : UnifiedState) (p : Payment)
    (status : PaymentStatus) (txid : Option String) (now : Int)
    (hmem : p ∈ st.payments) (hpaid : p.status = .PAID)
    (hallPaid : ∀ q ∈ st.payments, q.id = p.id → q.status = .PAID) :
    st.updatePaymentStatus p.id status txid now = (false, st) := by
  unfold UnifiedState.updatePaymentStatus
  cases hg : st.getPayment p.id with
  | none => simp
  | some r =>
      obtain ⟨hfind, _⟩ := getPayment_eq_some st p.id r hg
      have hr : r.status = .PAID :=
        hallPaid r (List.mem_of_find?_eq_some hfind)
          (by simpa using List.find?_some hfind)
      simp [hr]

/-- A PAID record of merchant `m1`, for concrete instantiations. -/
def paidRecord : Payment :=
  { id := "p1", merchantId := "m1", amount := 5, note := "coffee",
    status := .PAID, createdAt := 0, paidAt := some 3, txid := some "abc" }

/-- An `m1`-scoped store whose ledger holds just the settled `paidRecord`. -/
def settledStore : UnifiedState :=
  { freshStore "m1" with payments := [paidRecord] }

/-- C1 witness: a one-record ledger whose record is PAID; the update call
with a different target status and a fresh txid returns false and leaves
the state identical. -/
theorem updatePaymentStatus_already_paid_witness :
    settledStore.updatePaymentStatus "p1" .FAILED (some "zzz") 9
      = (false, settledStore) :=
  updatePaymentStatus_already_paid settledStore paidRecord
    .FAILED (some "zzz") 9 (by decide) (by decide) (by decide)

/-- C10: merchant isolation extends to status writes — when the ledger
record that the id-keyed lookup resolves belongs to a different merchant,
`updatePaymentStatus` returns false and leaves the whole state (hence
every stored payment) unchanged, because the merchant-scoped `getPayment`
treats the foreign record as not found. -/
theorem updatePaymentStatus_foreign_merchant (st : UnifiedState) (id : String)
    (p : Payment) (status : PaymentStatus) (txid : Option String) (now : Int)
    (hfind : st.payments.find? (fun q => q.id = id) = some p)
    (hforeign : p.merchantId ≠ st.activeMerchantId) :
    st.updatePaymentStatus id status txid now = (false, st) := by
  have hg : st.getPayment id = none := by
    unfold UnifiedState.getPayment
    rw [hfind]
    simp [hforeign]
  unfold UnifiedState.updatePaymentStatus
  rw [hg]

/-- A PENDING record owned by merchant `m2`, foreign to an `m1` session. -/
def foreignRecord : Payment :=
  { id := "p9", merchantId := "m2", amount := 7, note := "tea",
    status := .PENDING, createdAt := 0 }

/-- An `m1`-scoped store whose ledger holds only the `m2`-owned record. -/
def mixedStore : UnifiedState :=
  { freshStore "m1" with payments := [foreignRecord] }

/-- C10 witness: a PENDING record owned by merchant `m2` in an `m1`-scoped
store; the PAID transition is refused and the state is untouched. -/
theorem updatePaymentStatus_foreign_merchant_witness :
    mixedStore.updatePaymentStatus "p9" .PAID (some "tx") 5
      = (false, mixedStore) :=
  updatePaymentStatus_foreign_merchant mixedStore "p9" foreignRecord
    .PAID (some "tx") 5 (by decide) (by decide)

/-- C3: reads are merchant-scoped — `getAllPayments` returns only records
of the active merchant, even when the underlying ledger holds
foreign-merchant records, and `getPayment(id)` returns nothing when the
record the lookup resolves for that id belongs to a different merchant. -/
theorem merchant_scoped_reads :
    (∀ (st : UnifiedState), ∀ p ∈ st.getAllPayments,
      p.merchantId = st.activeMerchantId) ∧
    (∀ (st : UnifiedState) (id : String) (p : Payment),
      st.payments.find? (fun q => q.id = id) = some p →
      p.merchantId ≠ st.activeMerchantId → st.getPayment id = none) := by
  constructor
  · intro st p hp
    unfold UnifiedState.getAllPayments at hp
    have hp : p ∈ st.payments.filter (fun p => p.merchantId = st.activeMerchantId) :=
      (List.mergeSort_perm _ _).mem_iff.mp hp
    simpa using (List.mem_filter.mp hp).2
  · intro st id p hfind hforeign
    unfold UnifiedState.getPayment
    rw [hfind]
    simp [hforeign]

/-- An `m1` record and an `m2` record sharing one ledger. -/
def recordA : Payment :=
  { id := "a", merchantId := "m1", amount := 1, note := "", status := .PENDING,
    createdAt := 1 }

/-- The `m2`-owned sibling of `recordA`. -/
def recordB : Payment :=
  { id := "b", merchantId := "m2", amount := 2, note := "", status := .PENDING,
    createdAt := 2 }

/-- An `m1`-scoped store holding records of two different merchants. -/
def twoMerchantStore : UnifiedState :=
  { freshStore "m1" with payments := [recordA, recordB] }

/-- C3 witness: on the two-merchant ledger, `getAllPayments` surfaces only
the `m1` record and `getPayment` hides the `m2` record. -/
theorem merchant_scoped_reads_witness :
    (∀ p ∈ twoMerchantStore.getAllPayments, p.merchantId = "m1") ∧
    twoMerchantStore.getPayment "b" = none := by
  constructor
  · exact fun p hp => merchant_scoped_reads.1 twoMerchantStore p hp
  · exact merchant_scoped_reads.2 twoMerchantStore "b" recordB (by decide) (by decide)

/-- C4 counterexample: in `DEFAULT_STATE` itself — master toggle off,
per-domain record seeded from `OPERATIONAL_DOMAINS` with `flashpay`
enabled — `isDomainEnabled "flashpay"` reads true even though
`domainState.masterEnabled` is false, refuting "every individual domain
toggle reads as disabled while the master is off". -/
theorem isDomainEnabled_ignores_master_counterexample :
    (freshStore "m1").domainState.masterEnabled = false ∧
    (freshStore "m1").isDomainEnabled "flashpay" = true := by decide

/-- C4 amended: the master toggle gates writes, not reads — while
`masterEnabled` is false every `setDomainEnabled` call returns false and
leaves the state unchanged, and `isDomainEnabled` returns the stored
per-domain flag regardless of the master toggle (flipping the master
never changes what any domain toggle reads as). -/
theorem domain_master_gates_writes_not_reads :
    (∀ (st : UnifiedState) (domainId : String) (enabled : Bool),
      st.domainState.masterEnabled = false →
      st.setDomainEnabled domainId enabled = (false, st)) ∧
    (∀ (st : UnifiedState) (domainId : String),
      (st.setMasterEnabled false).isDomainEnabled domainId
        = (st.setMasterEnabled true).isDomainEnabled domainId) := by
  constructor
  · intro st domainId enabled h
    simp [UnifiedState.setDomainEnabled, h]
  · intro st domainId
    rfl

/-- C4 witness: on the default `m1` store (master off), enabling a new
domain is refused with no state change, and the `flashpay` flag reads the
same whether the master is off or on. -/
theorem domain_master_gates_writes_not_reads_witness :
    UnifiedState.setDomainEnabled (freshStore "m1") "other" true
      = (false, freshStore "m1") ∧
    ((freshStore "m1").setMasterEnabled false).isDomainEnabled "flashpay"
      = ((freshStore "m1").setMasterEnabled true).isDomainEnabled "flashpay" :=
  ⟨domain_master_gates_writes_not_reads.1 (freshStore "m1") "other" true (by decide),
   domain_master_gates_writes_not_reads.2 (freshStore "m1") "flashpay"⟩

/-- C2 counterexample: two sequential `createPaymentWithId` calls carrying
the same externally supplied id `pay-1`, both reaching the ledger write,
leave two records with that id — not one.  The second call is not a
no-op: there is no existing-record short-circuit on this path (the
`processingLocks` entry is removed in the same call's `finally`). -/
theorem createPaymentWithId_duplicate_counterexample :
    ((((freshStore "m1").createPaymentWithId "pay-1" 5 "retry" 0).snd.createPaymentWithId
        "pay-1" 5 "retry" 0).snd.payments.filter (fun p => p.id = "pay-1")).length = 2 ∧
    ¬ ((((freshStore "m1").createPaymentWithId "pay-1" 5 "retry" 0).snd.createPaymentWithId
        "pay-1" 5 "retry" 0).snd.payments.filter (fun p => p.id = "pay-1")).length = 1 := by
  decide

/-- C2 amended: the existing-record short-circuit lives in `addPayment`,
not in `createPaymentWithId` — a second `addPayment` carrying an id
already present in the ledger is a no-op (so at most one logical record
per id on that path), whereas every `createPaymentWithId` call appends a
record unconditionally, growing the count of records with its id by one. -/
theorem payment_id_idempotence_amended :
    (∀ (st : UnifiedState) (p : Payment),
      (∃ q ∈ st.payments, q.id = p.id) → st.addPayment p = st) ∧
    (∀ (st : UnifiedState) (id : String) (amount : ℚ) (note : String) (t : Int),
      (((st.createPaymentWithId id amount note t).snd.payments.filter
          (fun p => p.id = id)).length)
        = (st.payments.filter (fun p => p.id = id)).length + 1) := by
  constructor
  · rintro st p ⟨q, hq, hid⟩
    unfold UnifiedState.addPayment
    rw [if_pos]
    rw [List.find?_isSome]
    exact ⟨q, hq, by simp [hid]⟩
  · intro st id amount note t
    simp [UnifiedState.createPaymentWithId, List.filter_cons]

/-- C2 witness: replaying `paidRecord` through `addPayment` on the settled
store is a no-op, while a `createPaymentWithId` call on the fresh store
takes the `pay-1` record count from 0 to 1. -/
theorem payment_id_idempotence_amended_witness :
    settledStore.addPayment paidRecord = settledStore ∧
    ((((freshStore "m1").createPaymentWithId "pay-1" 5 "retry" 0).snd.payments.filter
        (fun p => p.id = "pay-1")).length)
      = ((freshStore "m1").payments.filter (fun p => p.id = "pay-1")).length + 1 :=
  ⟨payment_id_idempotence_amended.1 settledStore paidRecord
      ⟨paidRecord, by decide, rfl⟩,
   payment_id_idempotence_amended.2 (freshStore "m1") "pay-1" 5 "retry" 0⟩

/-- A local tab state that is newer than both incoming snapshots. -/
def newestLocal : UnifiedState := { freshStore "m1" with lastUpdated := 5 }

/-- Snapshot written at tick 1 by a tab seeing merchant `m-a`. -/
def snapshotOne : UnifiedState := { freshStore "m-a" with lastUpdated := 1 }

/-- Snapshot written at tick 2 by a tab seeing merchant `m-b`. -/
def snapshotTwo : UnifiedState := { freshStore "m-b" with lastUpdated := 2 }

/-- C7 counterexample: with a local state whose `lastUpdated` (5) exceeds
both snapshots' timestamps (1 and 2), the handler discards both, so
applying `S1` and `S2` in either order leaves the local state — not
`S2`'s state — refuting the unconditional order-independence claim. -/
theorem crossTab_lww_counterexample :
    snapshotOne.lastUpdated < snapshotTwo.lastUpdated ∧
    ¬ (newestLocal.applyExternalSnapshot snapshotOne).applyExternalSnapshot snapshotTwo
        = snapshotTwo ∧
    ¬ (newestLocal.applyExternalSnapshot snapshotTwo).applyExternalSnapshot snapshotOne
        = snapshotTwo := by
  decide

/-- C7 amended: reconciliation is strict last-writer-wins — an incoming
snapshot is applied exactly when its `lastUpdated` is strictly greater
than the local value, and otherwise discarded; consequently, for two
snapshots `S1` (`t1`) and `S2` (`t2 > t1`), PROVIDED `t2` also exceeds the
receiving store's local `lastUpdated`, applying them in either order
leaves the store in `S2`'s state. -/
theorem crossTab_lww_amended (loc S1 S2 : UnifiedState)
    (h12 : S1.lastUpdated < S2.lastUpdated)
    (hloc : loc.lastUpdated < S2.lastUpdated) :
    (loc.applyExternalSnapshot S1).applyExternalSnapshot S2 = S2 ∧
    (loc.applyExternalSnapshot S2).applyExternalSnapshot S1 = S2 ∧
    (∀ incoming : UnifiedState, loc.lastUpdated < incoming.lastUpdated →
      loc.applyExternalSnapshot incoming = incoming) ∧
    (∀ incoming : UnifiedState, ¬ loc.lastUpdated < incoming.lastUpdated →
      loc.applyExternalSnapshot incoming = loc) := by
  refine ⟨?_, ?_, ?_, ?_⟩
  · by_cases h1 : loc.lastUpdated < S1.lastUpdated
    · simp [UnifiedState.applyExternalSnapshot, h1, h12]
    · simp [UnifiedState.applyExternalSnapshot, h1, hloc]
  · simp [UnifiedState.applyExternalSnapshot, hloc, not_lt.mpr (le_of_lt h12)]
  · intro incoming h
    simp [UnifiedState.applyExternalSnapshot, h]
  · intro incoming h
    simp [UnifiedState.applyExternalSnapshot, h]

/-- C7 witness: an out-of-date local tab (tick 0) converges to
`snapshotTwo` whichever order the two snapshots arrive in. -/
theorem crossTab_lww_amended_witness :
    ((freshStore "m1").applyExternalSnapshot snapshotOne).applyExternalSnapshot
        snapshotTwo = snapshotTwo ∧
    ((freshStore "m1").applyExternalSnapshot snapshotTwo).applyExternalSnapshot
        snapshotOne = snapshotTwo :=
  ⟨(crossTab_lww_amended (freshStore "m1") snapshotOne snapshotTwo
      (by decide) (by decide)).1,
   (crossTab_lww_amended (freshStore "m1") snapshotOne snapshotTwo
      (by decide) (by decide)).2.1⟩

/-- The fresh `m1` store right after `create(amount := 5, note := "coffee")`
(generated id `p1`, clock 0). -/
def scenarioStore : UnifiedState :=
  ((freshStore "m1").createPayment "p1" 5 "coffee" 0).snd

/-- `scenarioStore` after `updateStatus("p1", PAID, txid := "abc")` at
clock 10. -/
def scenarioSettled : UnifiedState :=
  (scenarioStore.updatePaymentStatus "p1" .PAID (some "abc") 10).snd

/-- The settled scenario record: `p1` PAID at clock 10 with txid `abc`. -/
def paidScenarioRecord : Payment :=
  { id := "p1", merchantId := "m1", amount := 5, note := "coffee",
    status := .PAID, createdAt := 0, paidAt := some 10, txid := some "abc" }

/-- C9: `stats()` reports per-status counts and the paid-amount sum for the
active merchant only — pushing a foreign-merchant record onto the ledger
leaves every reported figure unchanged — with
`conversionRate = paidPayments / totalPayments * 100` and
`conversionRate = 0` when `totalPayments = 0`; and on the concrete
scenario (fresh merchant context, `create(5, "coffee")` yielding a PENDING
record, then `updateStatus(id, PAID, txid := "abc")`) it reports
`paidPayments = 1`, `totalAmount = 5`, `conversionRate = 100`. -/
theorem getPaymentStats_spec :
    (∀ (st : UnifiedState) (p : Payment), p.merchantId ≠ st.activeMerchantId →
      UnifiedState.getPaymentStats { st with payments := p :: st.payments }
        = st.getPaymentStats) ∧
    (∀ st : UnifiedState, st.getPaymentStats.conversionRate =
      if st.getPaymentStats.totalPayments = 0 then 0
      else (st.getPaymentStats.paidPayments : ℚ)
        / (st.getPaymentStats.totalPayments : ℚ) * 100) ∧
    ((scenarioStore.getPayment "p1").map Payment.status = some .PENDING ∧
      scenarioSettled.getPaymentStats.paidPayments = 1 ∧
      scenarioSettled.getPaymentStats.totalAmount = 5 ∧
      scenarioSettled.getPaymentStats.conversionRate = 100) := by
  refine ⟨?_, ?_, ?_, ?_⟩
  · intro st p h
    unfold UnifiedState.getPaymentStats
    simp [activeMerchantId_payments_update, List.filter_cons, h]
  · intro st
    unfold UnifiedState.getPaymentStats
    by_cases h : (st.payments.filter
        (fun p => p.merchantId = st.activeMerchantId)).length = 0
    · simp [h]
    · simp [h, Nat.pos_of_ne_zero h]
  · simp [scenarioStore, freshStore, UnifiedState.createPayment,
      UnifiedState.getPayment, UnifiedState.activeMerchantId]
  · have hset : scenarioSettled
        = { freshStore "m1" with payments := [paidScenarioRecord] } := rfl
    rw [hset]
    unfold UnifiedState.getPaymentStats
    norm_num [UnifiedState.activeMerchantId, freshStore, paidScenarioRecord,
      List.filter_cons]

/-- C9 witness: instantiating the foreign-record invariance on the settled
scenario store with the `m2`-owned record. -/
theorem getPaymentStats_spec_witness :
    UnifiedState.getPaymentStats
        { scenarioSettled with payments := foreignRecord :: scenarioSettled.payments }
      = scenarioSettled.getPaymentStats :=
  getPaymentStats_spec.1 scenarioSettled foreignRecord (by decide)

/-- Fuel irrelevance for `countFactorsAux`: any fuel of at least `n`
computes the same multiplicity. -/
theorem countFactorsAux_fuel (p : ℕ) :
    ∀ (f1 n f2 : ℕ), n ≤ f1 → n ≤ f2 →
      countFactorsAux p f1 n = countFactorsAux p f2 n := by
  intro f1
  induction f1 with
  | zero =>
      intro n f2 h1 _
      have hn : n = 0 := by omega
      subst hn
      cases f2 with
      | zero => rfl
      | succ g => simp [countFactorsAux]
  | succ f ih =>
      intro n f2 h1 h2
      rcases Nat.eq_zero_or_pos n with hn | hn
      · subst hn
        cases f2 with
        | zero => simp [countFactorsAux]
        | succ g => simp [countFactorsAux]
      · obtain ⟨g, rfl⟩ : ∃ g, f2 = g + 1 := ⟨f2 - 1, by omega⟩
        by_cases hc : 1 < p ∧ 1 < n ∧ n % p = 0
        · have hdiv : n / p < n := Nat.div_lt_self (by omega) hc.1
          show countFactorsAux p (f + 1) n = countFactorsAux p (g + 1) n
          simp only [countFactorsAux, if_pos hc]
          rw [ih (n / p) g (by omega) (by omega)]
        · show countFactorsAux p (f + 1) n = countFactorsAux p (g + 1) n
          simp only [countFactorsAux, if_neg hc]

/-- Recurrence of the multiplicity counter on a proper factor. -/
theorem countFactors_step (p n : ℕ) (hp : 1 < p) (hn : 1 < n)
    (hmod : n % p = 0) : countFactors p n = countFactors p (n / p) + 1 := by
  unfold countFactors
  obtain ⟨f, rfl⟩ : ∃ f, n = f + 1 := ⟨n - 1, by omega⟩
  have hc : 1 < p ∧ 1 < f + 1 ∧ (f + 1) % p = 0 := ⟨hp, hn, hmod⟩
  show countFactorsAux p (f + 1) (f + 1) = _
  simp only [countFactorsAux, if_pos hc]
  have hdiv : (f + 1) / p < f + 1 := Nat.div_lt_self (by omega) hp
  rw [countFactorsAux_fuel p f ((f + 1) / p) ((f + 1) / p) (by omega) le_rfl]

/-- The multiplicity counter vanishes when no factor can be split off. -/
theorem countFactors_eq_zero (p n : ℕ)
    (h : ¬ (1 < p ∧ 1 < n ∧ n % p = 0)) : countFactors p n = 0 := by
  unfold countFactors
  cases n with
  | zero => rfl
  | succ f =>
      show countFactorsAux p (f + 1) (f + 1) = 0
      simp only [countFactorsAux, if_neg h]

/-- Multiplicity of 2 in `2 ^ x * 5 ^ y`. -/
theorem countFactors_two_pow (x y : ℕ) :
    countFactors 2 (2 ^ x * 5 ^ y) = x := by
  induction x with
  | zero =>
      simp only [pow_zero, one_mul]
      apply countFactors_eq_zero
      rintro ⟨-, -, hmod⟩
      have h5 : 5 ^ y % 2 = 1 := by
        rw [Nat.pow_mod]
        simp
      omega
  | succ k ih =>
      have hsplit : (2 : ℕ) ^ (k + 1) * 5 ^ y = 2 * (2 ^ k * 5 ^ y) := by ring
      have hpos : 0 < 2 ^ k * 5 ^ y := by positivity
      rw [hsplit, countFactors_step 2 (2 * (2 ^ k * 5 ^ y)) (by omega) (by omega)
        (Nat.mul_mod_right 2 _)]
      rw [Nat.mul_div_cancel_left _ (by omega : 0 < 2)]
      rw [ih]

/-- Multiplicity of 5 in `2 ^ x * 5 ^ y`. -/
theorem countFactors_five_pow (x y : ℕ) :
    countFactors 5 (2 ^ x * 5 ^ y) = y := by
  induction y with
  | zero =>
      simp only [pow_zero, mul_one]
      apply countFactors_eq_zero
      rintro ⟨-, -, hmod⟩
      have h2 : 2 ^ x % 5 ≠ 0 := by
        intro h
        have hdvd : 5 ∣ 2 ^ x := Nat.dvd_of_mod_eq_zero h
        have : (5 : ℕ) ∣ 2 := Nat.Prime.dvd_of_dvd_pow (by norm_num) hdvd
        omega
      exact h2 hmod
  | succ k ih =>
      have hsplit : (2 : ℕ) ^ x * 5 ^ (k + 1) = 5 * (2 ^ x * 5 ^ k) := by ring
      have hpos : 0 < 2 ^ x * 5 ^ k := by positivity
      rw [hsplit, countFactors_step 5 (5 * (2 ^ x * 5 ^ k)) (by omega) (by omega)
        (Nat.mul_mod_right 5 _)]
      rw [Nat.mul_div_cancel_left _ (by omega : 0 < 5)]
      rw [ih]

/-- The counted power really divides: `p ^ countFactors p n ∣ n`. -/
theorem pow_countFactors_dvd (p : ℕ) (hp : 1 < p) :
    ∀ n, p ^ countFactors p n ∣ n := by
  intro n
  induction n using Nat.strong_induction_on with
  | _ n ih =>
      by_cases hc : 1 < n ∧ n % p = 0
      · rw [countFactors_step p n hp hc.1 hc.2, pow_succ]
        have hdvd : p ∣ n := Nat.dvd_of_mod_eq_zero hc.2
        have hlt : n / p < n := Nat.div_lt_self (by omega) hp
        have h1 := ih (n / p) hlt
        have h2 : p ^ countFactors p (n / p) * p ∣ n / p * p :=
          Nat.mul_dvd_mul_right h1 p
        rwa [Nat.div_mul_cancel hdvd] at h2
      · rw [countFactors_eq_zero p n (by tauto), pow_zero]
        exact one_dvd n

/-- Digit-count bounds: a positive number with `k` digits lies in
`[10 ^ (k - 1), 10 ^ k)`. -/
theorem numDigitsAux_bounds :
    ∀ (fuel n : ℕ), 1 ≤ n → n ≤ fuel →
      10 ^ (numDigitsAux fuel n - 1) ≤ n ∧ n < 10 ^ numDigitsAux fuel n := by
  intro fuel
  induction fuel with
  | zero => intro n h1 h2; omega
  | succ f ih =>
      intro n h1 h2
      by_cases h : n < 10
      · simp only [numDigitsAux, if_pos h]
        constructor
        · simpa using h1
        · simpa using h
      · simp only [numDigitsAux, if_neg h]
        have h10 : 1 ≤ n / 10 := by omega
        have hle : n / 10 ≤ f := by
          have := Nat.div_lt_self (by omega : 0 < n) (by omega : (1:ℕ) < 10)
          omega
        obtain ⟨hlow, hhigh⟩ := ih (n / 10) h10 hle
        have hj1 : 1 ≤ numDigitsAux f (n / 10) := by
          by_contra hj
          have hj0 : numDigitsAux f (n / 10) = 0 := by omega
          rw [hj0] at hhigh
          simp at hhigh
          omega
        constructor
        · have e1 : numDigitsAux f (n / 10) + 1 - 1 = numDigitsAux f (n / 10) := by
            omega
          rw [e1]
          calc 10 ^ numDigitsAux f (n / 10)
              = 10 * 10 ^ (numDigitsAux f (n / 10) - 1) := by
                rw [← pow_succ']
                congr 1
                omega
            _ ≤ 10 * (n / 10) := by
                exact Nat.mul_le_mul_left 10 hlow
            _ ≤ n := by
                have := Nat.div_mul_le_self n 10
                omega
        · have hstep : n < 10 * (n / 10 + 1) := by omega
          calc n < 10 * (n / 10 + 1) := hstep
            _ ≤ 10 * 10 ^ numDigitsAux f (n / 10) := by
                have : n / 10 + 1 ≤ 10 ^ numDigitsAux f (n / 10) := by omega
                exact Nat.mul_le_mul_left 10 this
            _ = 10 ^ (numDigitsAux f (n / 10) + 1) := by
                rw [pow_succ']

/-- Digit-count bounds for `numDigits`. -/
theorem numDigits_bounds (n : ℕ) (h : 1 ≤ n) :
    10 ^ (numDigits n - 1) ≤ n ∧ n < 10 ^ numDigits n :=
  numDigitsAux_bounds n n h le_rfl

/-- On the plain-notation regime the code's `toString`-based count agrees
with the mathematical fractional-digit count: every decimal-valued amount
between `1e-6` and `1e6` is rendered in plain decimal notation, where the
characters after the point are exactly the fractional digits. -/
theorem jsDecimalPlaces_eq_decimalDigits (q : ℚ) (x y : ℕ)
    (hden : q.den = 2 ^ x * 5 ^ y)
    (hlow : 1 / 1000000 ≤ q) (hhigh : q ≤ 1000000) :
    jsDecimalPlaces q = decimalDigits q := by
  have hq0 : 0 < q := lt_of_lt_of_le (by norm_num) hlow
  have hnum0 : 0 < q.num := Rat.num_pos.mpr hq0
  have hnat0 : 0 < q.num.natAbs := Int.natAbs_pos.mpr (ne_of_gt hnum0)
  have hdenpos : 0 < q.den := q.den_pos
  set d := decimalDigits q with hd_def
  have hfold : max (countFactors 2 q.den) (countFactors 5 q.den) = d := by
    rw [hd_def]
    rfl
  have hdxy : d = max x y := by
    rw [hd_def]
    unfold decimalDigits
    rw [hden, countFactors_two_pow, countFactors_five_pow]
  have h10split : ∀ t : ℕ, (10 : ℕ) ^ t = 2 ^ t * 5 ^ t := by
    intro t
    rw [show (10 : ℕ) = 2 * 5 by norm_num, Nat.mul_pow]
  have hdvd : q.den ∣ 10 ^ d := by
    rw [hden, h10split]
    exact mul_dvd_mul (pow_dvd_pow 2 (by omega)) (pow_dvd_pow 5 (by omega))
  set m := q.num.natAbs * 10 ^ d / q.den with hm_def
  have hexact : q.den ∣ q.num.natAbs * 10 ^ d := hdvd.mul_left q.num.natAbs
  have hmmul : m * q.den = q.num.natAbs * 10 ^ d := Nat.div_mul_cancel hexact
  have hm0 : 0 < m := by
    rcases Nat.eq_zero_or_pos m with h0 | h0
    · exfalso
      rw [h0, zero_mul] at hmmul
      have hpos : 0 < q.num.natAbs * 10 ^ d :=
        Nat.mul_pos hnat0 (by positivity)
      omega
    · exact h0
  have hden0 : ((q.den : ℕ) : ℚ) ≠ 0 := Nat.cast_ne_zero.mpr (by omega)
  have hq_den : (q.num : ℚ) = q * (q.den : ℚ) :=
    (div_eq_iff hden0).mp (Rat.num_div_den q)
  have hnatcast : ((q.num.natAbs : ℕ) : ℚ) = (q.num : ℚ) := by
    have habs : ((q.num.natAbs : ℕ) : ℤ) = q.num := Int.natAbs_of_nonneg hnum0.le
    rw [← habs]
    exact (Int.cast_natCast q.num.natAbs).symm
  have hmq : (m : ℚ) = q * (10 : ℚ) ^ d := by
    have h1 : ((m * q.den : ℕ) : ℚ) = ((q.num.natAbs * 10 ^ d : ℕ) : ℚ) :=
      Nat.cast_inj.mpr hmmul
    push_cast at h1
    rw [hnatcast, hq_den] at h1
    have h2 : (m : ℚ) * (q.den : ℚ) = (q * (10 : ℚ) ^ d) * (q.den : ℚ) := by
      rw [h1]
      ring
    exact mul_right_cancel₀ hden0 h2
  have hupper : m ≤ 10 ^ (6 + d) := by
    have h1 : (m : ℚ) ≤ 1000000 * (10 : ℚ) ^ d := by
      rw [hmq]
      exact mul_le_mul_of_nonneg_right hhigh (by positivity)
    have h2 : (m : ℚ) ≤ ((10 ^ (6 + d) : ℕ) : ℚ) := by
      calc (m : ℚ) ≤ 1000000 * (10 : ℚ) ^ d := h1
        _ = ((10 ^ (6 + d) : ℕ) : ℚ) := by
            push_cast [pow_add]
            norm_num
    exact_mod_cast h2
  have hlower : 10 ^ d ≤ m * 10 ^ 6 := by
    have h1 : 1 / 1000000 * (10 : ℚ) ^ d ≤ (m : ℚ) := by
      rw [hmq]
      exact mul_le_mul_of_nonneg_right hlow (by positivity)
    have h2 : ((10 ^ d : ℕ) : ℚ) ≤ ((m * 10 ^ 6 : ℕ) : ℚ) := by
      push_cast
      nlinarith [h1]
    exact_mod_cast h2
  have hjs : jsDecimalPlaces q =
      (let z := min (countFactors 2 m) (countFactors 5 m)
       let k := numDigits (m / 10 ^ z)
       let n : Int := (k : Int) + (z : Int) - (d : Int)
       if -6 < n ∧ n ≤ 21 then d - z
       else if k = 1 then 0 else (k - 1) + 2 + numDigits (n - 1).natAbs) := by
    unfold jsDecimalPlaces
    rw [hfold]
    dsimp only []
    rw [← hm_def, if_neg (by omega : ¬ m = 0)]
  rcases Nat.eq_zero_or_pos d with hd0 | hd0
  · -- integer amounts: plain notation with no fractional part
    set z := min (countFactors 2 m) (countFactors 5 m) with hz_def
    have h2z : (2 : ℕ) ^ z ∣ m :=
      dvd_trans (pow_dvd_pow 2 (by omega : z ≤ countFactors 2 m))
        (pow_countFactors_dvd 2 (by omega) m)
    have h5z : (5 : ℕ) ^ z ∣ m :=
      dvd_trans (pow_dvd_pow 5 (by omega : z ≤ countFactors 5 m))
        (pow_countFactors_dvd 5 (by omega) m)
    have h10z : (10 : ℕ) ^ z ∣ m := by
      rw [h10split]
      exact Nat.Coprime.mul_dvd_of_dvd_of_dvd
        (Nat.Coprime.pow z z (by norm_num)) h2z h5z
    have hsmul : m / 10 ^ z * 10 ^ z = m := Nat.div_mul_cancel h10z
    have hs0 : 0 < m / 10 ^ z := by
      rcases Nat.eq_zero_or_pos (m / 10 ^ z) with h0 | h0
      · rw [h0, zero_mul] at hsmul
        omega
      · exact h0
    obtain ⟨hklow, hkhigh⟩ := numDigits_bounds (m / 10 ^ z) hs0
    set k := numDigits (m / 10 ^ z) with hk_def
    have hk1 : 1 ≤ k := by
      by_contra hk
      have hk0 : k = 0 := by omega
      rw [hk0] at hkhigh
      simp at hkhigh
      omega
    have hkz : k + z ≤ 7 := by
      have h1 : 10 ^ (k - 1) * 10 ^ z ≤ m := by
        calc 10 ^ (k - 1) * 10 ^ z ≤ m / 10 ^ z * 10 ^ z :=
              Nat.mul_le_mul_right _ hklow
          _ = m := hsmul
      rw [← pow_add] at h1
      have h2 : (10 : ℕ) ^ (k - 1 + z) ≤ 10 ^ 6 := by
        calc (10 : ℕ) ^ (k - 1 + z) ≤ m := h1
          _ ≤ 10 ^ (6 + d) := hupper
          _ = 10 ^ 6 := by rw [hd0]
      have := (Nat.pow_le_pow_iff_right (by norm_num : (1:ℕ) < 10)).mp h2
      omega
    rw [hjs]
    simp only [← hz_def, ← hk_def]
    rw [if_pos (by constructor <;> omega)]
    omega
  · -- fractional amounts: no trailing zeros survive, plain notation
    have hz0 : min (countFactors 2 m) (countFactors 5 m) = 0 := by
      by_contra hz
      have h2pos : 0 < countFactors 2 m ∧ 0 < countFactors 5 m := by omega
      have h2d : 1 < m ∧ m % 2 = 0 := by
        by_contra hcon
        have : countFactors 2 m = 0 := countFactors_eq_zero 2 m (by tauto)
        omega
      have h5d : 1 < m ∧ m % 5 = 0 := by
        by_contra hcon
        have : countFactors 5 m = 0 := countFactors_eq_zero 5 m (by tauto)
        omega
      have h10 : (10 : ℕ) ∣ m :=
        Nat.Coprime.mul_dvd_of_dvd_of_dvd (by norm_num)
          (Nat.dvd_of_mod_eq_zero h2d.2) (Nat.dvd_of_mod_eq_zero h5d.2)
      obtain ⟨m1, hm1⟩ := h10
      have hpow : (10 : ℕ) ^ d = 10 * 10 ^ (d - 1) := by
        rw [← pow_succ']
        congr 1
        omega
      have hcancel : q.num.natAbs * 10 ^ (d - 1) = m1 * q.den := by
        have h1 : 10 * (q.num.natAbs * 10 ^ (d - 1)) = 10 * (m1 * q.den) := by
          calc 10 * (q.num.natAbs * 10 ^ (d - 1))
              = q.num.natAbs * 10 ^ d := by rw [hpow]; ring
            _ = m * q.den := hmmul.symm
            _ = 10 * m1 * q.den := by rw [hm1]
            _ = 10 * (m1 * q.den) := by ring
        omega
      have hdvd2 : q.den ∣ q.num.natAbs * 10 ^ (d - 1) := by
        rw [hcancel]
        exact dvd_mul_left q.den m1
      have hdvd3 : q.den ∣ 10 ^ (d - 1) :=
        Nat.Coprime.dvd_of_dvd_mul_left (q.reduced).symm hdvd2
      have hxle : x ≤ d - 1 := by
        have h2x : (2 : ℕ) ^ x ∣ 10 ^ (d - 1) :=
          dvd_trans (by rw [hden]; exact dvd_mul_right (2 ^ x) (5 ^ y)) hdvd3
        rw [h10split] at h2x
        have h2' : (2 : ℕ) ^ x ∣ 2 ^ (d - 1) :=
          Nat.Coprime.dvd_of_dvd_mul_right
            (Nat.Coprime.pow x (d - 1) (by norm_num)) h2x
        exact (Nat.pow_dvd_pow_iff_le_right (by norm_num)).mp h2'
      have hyle : y ≤ d - 1 := by
        have h5y : (5 : ℕ) ^ y ∣ 10 ^ (d - 1) :=
          dvd_trans (by rw [hden]; exact dvd_mul_left (5 ^ y) (2 ^ x)) hdvd3
        rw [h10split] at h5y
        have h5' : (5 : ℕ) ^ y ∣ 5 ^ (d - 1) :=
          Nat.Coprime.dvd_of_dvd_mul_left
            (Nat.Coprime.pow y (d - 1) (by norm_num : Nat.Coprime 5 2)) h5y
        exact (Nat.pow_dvd_pow_iff_le_right (by norm_num)).mp h5'
      omega
    obtain ⟨hklow, hkhigh⟩ := numDigits_bounds m hm0
    set k := numDigits m with hk_def
    have hk1 : 1 ≤ k := by
      by_contra hk
      have hk0 : k = 0 := by omega
      rw [hk0] at hkhigh
      simp at hkhigh
      omega
    have hkub : k ≤ d + 7 := by
      have h1 : (10 : ℕ) ^ (k - 1) ≤ 10 ^ (6 + d) := le_trans hklow hupper
      have := (Nat.pow_le_pow_iff_right (by norm_num : (1:ℕ) < 10)).mp h1
      omega
    have hklb : d < k + 6 := by
      have h1 : (10 : ℕ) ^ d < 10 ^ (k + 6) := by
        calc (10 : ℕ) ^ d ≤ m * 10 ^ 6 := hlower
          _ < 10 ^ k * 10 ^ 6 := (Nat.mul_lt_mul_right (by positivity)).mpr hkhigh
          _ = 10 ^ (k + 6) := by rw [← pow_add]
      exact (Nat.pow_lt_pow_iff_right (by norm_num : (1:ℕ) < 10)).mp h1
    rw [hjs]
    simp only [hz0, pow_zero, Nat.div_one, ← hk_def]
    rw [if_pos (by constructor <;> omega)]
    omega

/-- C6 counterexample: the claim's "valid exactly when ... at most 7
fractional digits" fails below `1e-6`, where `toString` switches to
exponential notation — `(1e-8).toString()` is `"1e-8"` (no `.`, count 0)
and `(2.5e-7).toString()` is `"2.5e-7"` (count 4, the characters
`5e-7`) — so `validateAmount` accepts both `1e-8` and `2.5e-7` although
each has 8 fractional digits. -/
theorem validateAmount_exponential_counterexample :
    (InputValidator.validateAmount 0.00000001).valid = true ∧
    decimalDigits (0.00000001 : ℚ) = 8 ∧
    (InputValidator.validateAmount 0.00000025).valid = true ∧
    decimalDigits (0.00000025 : ℚ) = 8 := by
  have hjs1 : jsDecimalPlaces (0.00000001 : ℚ) = 0 := by
    have hnum : (0.00000001 : ℚ).num = 1 := by norm_num
    have hden : (0.00000001 : ℚ).den = 100000000 := by norm_num
    unfold jsDecimalPlaces
    rw [hnum, hden]
    decide
  have hjs2 : jsDecimalPlaces (0.00000025 : ℚ) = 4 := by
    have hnum : (0.00000025 : ℚ).num = 1 := by norm_num
    have hden : (0.00000025 : ℚ).den = 4000000 := by norm_num
    unfold jsDecimalPlaces
    rw [hnum, hden]
    decide
  refine ⟨?_, ?_, ?_, ?_⟩
  · unfold InputValidator.validateAmount
    rw [hjs1]
    norm_num
  · have hden : (0.00000001 : ℚ).den = 100000000 := by norm_num
    unfold decimalDigits
    rw [hden]
    decide
  · unfold InputValidator.validateAmount
    rw [hjs2]
    norm_num
  · have hden : (0.00000025 : ℚ).den = 4000000 := by norm_num
    unfold decimalDigits
    rw [hden]
    decide

/-- C6 amended: `validateAmount(a)` accepts exactly the finite numeric
amounts with `0 < a ≤ 1,000,000` whose `toString`-based fractional-digit
count (`jsDecimalPlaces`) is at most 7.  For every decimal-valued amount
from `1e-6` up — rendered in plain decimal notation, which covers all
accepted amounts except those below `1e-6` — that count equals the true
fractional-digit count, so there the original reading holds; in
particular `-1` and `1e7` fail, `3.1234567` (7 decimals) passes and
`3.12345678` (8 decimals) fails.  Below `1e-6` the exponential rendering
undercounts and amounts with more than 7 fractional digits are accepted
(see the counterexample). -/
theorem validateAmount_toString_spec :
    (∀ a : ℚ, (InputValidator.validateAmount a).valid = true ↔
      (0 < a ∧ a ≤ 1000000 ∧ jsDecimalPlaces a ≤ 7)) ∧
    (∀ (a : ℚ) (x y : ℕ), a.den = 2 ^ x * 5 ^ y →
      1 / 1000000 ≤ a → a ≤ 1000000 →
      jsDecimalPlaces a = decimalDigits a) ∧
    (InputValidator.validateAmount (-1)).valid = false ∧
    (InputValidator.validateAmount 10000000).valid = false ∧
    (InputValidator.validateAmount 3.1234567).valid = true ∧
    (InputValidator.validateAmount 3.12345678).valid = false := by
  have hiff : ∀ a : ℚ, (InputValidator.validateAmount a).valid = true ↔
      (0 < a ∧ a ≤ 1000000 ∧ jsDecimalPlaces a ≤ 7) := by
    intro a
    unfold InputValidator.validateAmount
    split_ifs with h0 h1 h2
    · simp [not_lt.mpr h0]
    · simp [not_le.mpr h1]
    · simp [not_le.mpr h2]
    · simp [not_le.mp h0, not_lt.mp h1, not_lt.mp h2]
  have hjs7 : jsDecimalPlaces (3.1234567 : ℚ) = 7 := by
    rw [jsDecimalPlaces_eq_decimalDigits 3.1234567 7 7 (by norm_num)
      (by norm_num) (by norm_num)]
    have hden : (3.1234567 : ℚ).den = 10000000 := by norm_num
    unfold decimalDigits
    rw [hden]
    decide
  have hjs8 : jsDecimalPlaces (3.12345678 : ℚ) = 8 := by
    rw [jsDecimalPlaces_eq_decimalDigits 3.12345678 7 8 (by norm_num)
      (by norm_num) (by norm_num)]
    have hden : (3.12345678 : ℚ).den = 50000000 := by norm_num
    unfold decimalDigits
    rw [hden]
    decide
  refine ⟨hiff, jsDecimalPlaces_eq_decimalDigits, ?_, ?_, ?_, ?_⟩
  · norm_num [InputValidator.validateAmount]
  · norm_num [InputValidator.validateAmount]
  · unfold InputValidator.validateAmount
    rw [hjs7]
    norm_num
  · unfold InputValidator.validateAmount
    rw [hjs8]
    norm_num

/-- C6 witness: the plain-notation agreement instantiated at `3.1234567`
(denominator `10 ^ 7 = 2 ^ 7 * 5 ^ 7`), whose code-side and true
fractional-digit counts coincide. -/
theorem validateAmount_toString_spec_witness :
    jsDecimalPlaces (3.1234567 : ℚ) = decimalDigits (3.1234567 : ℚ) :=
  validateAmount_toString_spec.2.1 3.1234567 7 7 (by norm_num)
    (by norm_num) (by norm_num)

/-- Sequential `check` calls all succeed while the window has room: with
the already-recorded timestamps `pre` and the incoming call times `ts`
jointly inside one window and `pre.length + ts.length` within the budget,
every call is allowed and the recorded timestamps end up `pre ++ ts`. -/
theorem run_allowed_of_within_window (cfg : RateLimitConfig) :
    ∀ (ts pre : List Int),
      pre.length + ts.length ≤ cfg.maxAttempts →
      (∀ s, (s ∈ pre ∨ s ∈ ts) → ∀ t ∈ ts, t - s < cfg.windowMs) →
      RateLimiter.run cfg pre ts = (List.replicate ts.length true, pre ++ ts) := by
  intro ts
  induction ts with
  | nil =>
      intro pre _ _
      simp [RateLimiter.run]
  | cons t rest ih =>
      intro pre hlen hwin
      have hfilter : pre.filter (fun s => decide (t - cfg.windowMs < s)) = pre := by
        rw [List.filter_eq_self]
        intro s hs
        have h := hwin s (Or.inl hs) t (by simp)
        simp only [decide_eq_true_eq]
        omega
      have hallow : pre.length < cfg.maxAttempts := by
        simp only [List.length_cons] at hlen
        omega
      have hcheck : RateLimiter.check pre cfg t
          = ({ allowed := true,
               remainingAttempts := cfg.maxAttempts - (pre.length + 1) }, pre ++ [t]) := by
        unfold RateLimiter.check
        rw [if_neg (by simp [ENABLE_RATE_LIMITING])]
        simp only [hfilter]
        rw [if_pos hallow]
        simp
      have hrest : RateLimiter.run cfg (pre ++ [t]) rest
          = (List.replicate rest.length true, (pre ++ [t]) ++ rest) := by
        apply ih
        · simp only [List.length_append, List.length_cons, List.length_nil] at hlen ⊢
          omega
        · intro s hs u hu
          rcases hs with hs | hs
          · rcases List.mem_append.mp hs with hs | hs
            · exact hwin s (Or.inl hs) u (List.mem_cons_of_mem t hu)
            · have hst : s = t := by simpa using hs
              rw [hst]
              exact hwin t (Or.inr (by simp)) u (List.mem_cons_of_mem t hu)
          · exact hwin s (Or.inr (List.mem_cons_of_mem t hs)) u
              (List.mem_cons_of_mem t hu)
      show (let step := RateLimiter.check pre cfg t
            let rest' := RateLimiter.run cfg step.snd rest
            (step.fst.allowed :: rest'.fst, rest'.snd))
          = (List.replicate (t :: rest).length true, pre ++ t :: rest)
      rw [hcheck]
      simp only [hrest, List.length_cons, List.replicate_succ]
      rw [← List.append_cons]

/-- C5: the rate limiter is a lazily-pruned sliding-window counter — from
an empty window, `N` calls inside one window (`maxAttempts = N`,
`windowMs = W`) are all allowed and each records its timestamp; the
`(N+1)`-th call inside the same window is denied; every denied call leaves
the window as the pruned timestamp list (recording nothing new); and once
`W` has elapsed past every recorded timestamp a further call is allowed
again, because timestamps older than `now - W` are dropped on every
check. -/
theorem rateLimiter_sliding_window (N : ℕ) (W : Int) (hN : 0 < N)
    (ts : List Int) (hlen : ts.length = N)
    (hpair : ∀ s ∈ ts, ∀ t ∈ ts, t - s < W) :
    RateLimiter.run ⟨N, W⟩ [] ts = (List.replicate N true, ts) ∧
    (∀ t1, (∀ s ∈ ts, t1 - s < W) →
      RateLimiter.check ts ⟨N, W⟩ t1
        = ({ allowed := false, remainingAttempts := 0 }, ts)) ∧
    (∀ t2, (∀ s ∈ ts, W ≤ t2 - s) →
      RateLimiter.check ts ⟨N, W⟩ t2
        = ({ allowed := true, remainingAttempts := N - 1 }, [t2])) ∧
    (∀ (attempts : List Int) (now : Int),
      (RateLimiter.check attempts ⟨N, W⟩ now).fst.allowed = false →
      (RateLimiter.check attempts ⟨N, W⟩ now).snd
        = attempts.filter (fun s => decide (now - W < s))) := by
  refine ⟨?_, ?_, ?_, ?_⟩
  · have h := run_allowed_of_within_window ⟨N, W⟩ ts []
      (by simpa using hlen.le) (by simpa using fun s hs => hpair s hs)
    simpa [hlen] using h
  · intro t1 h
    have hfilter : ts.filter (fun s => decide (t1 - W < s)) = ts := by
      rw [List.filter_eq_self]
      intro s hs
      have := h s hs
      simp only [decide_eq_true_eq]
      omega
    unfold RateLimiter.check
    rw [if_neg (by simp [ENABLE_RATE_LIMITING])]
    simp only [hfilter]
    rw [if_neg (by rw [hlen]; omega)]
    simp [hlen]
  · intro t2 h
    have hfilter : ts.filter (fun s => decide (t2 - W < s)) = [] := by
      rw [List.filter_eq_nil_iff]
      intro s hs
      have := h s hs
      simp only [decide_eq_true_eq]
      omega
    unfold RateLimiter.check
    rw [if_neg (by simp [ENABLE_RATE_LIMITING])]
    simp only [hfilter]
    rw [if_pos (by simpa using hN)]
    simp
  · intro attempts now hdeny
    by_cases hall : (attempts.filter (fun s => decide (now - W < s))).length < N
    · exfalso
      revert hdeny
      simp [RateLimiter.check, ENABLE_RATE_LIMITING, hall]
    · simp [RateLimiter.check, ENABLE_RATE_LIMITING, hall]

/-- C5 witness: `maxAttempts = 2`, `windowMs = 10`; calls at 0 and 3 are
both allowed, a third call at 5 inside the window is denied without
recording, and a call at 13 (at least 10 past both recorded timestamps)
is allowed again. -/
theorem rateLimiter_sliding_window_witness :
    RateLimiter.run ⟨2, 10⟩ [] [0, 3] = ([true, true], [0, 3]) ∧
    RateLimiter.check [0, 3] ⟨2, 10⟩ 5
      = ({ allowed := false, remainingAttempts := 0 }, [0, 3]) ∧
    RateLimiter.check [0, 3] ⟨2, 10⟩ 13
      = ({ allowed := true, remainingAttempts := 1 }, [13]) :=
  ⟨(rateLimiter_sliding_window 2 10 (by decide) [0, 3] (by decide) (by decide)).1,
   (rateLimiter_sliding_window 2 10 (by decide) [0, 3] (by decide) (by decide)).2.1
      5 (by decide),
   (rateLimiter_sliding_window 2 10 (by decide) [0, 3] (by decide) (by decide)).2.2.1
      13 (by decide)⟩

/-- With `REQUIRE_MASTER_ENABLED` off and `REQUIRE_DOMAIN_ENABLED` on, the
pre-operation check passes exactly on the domain flag. -/
theorem preOperationCheck_passes (st : UnifiedState)
    (hdom : st.isDomainEnabled "flashpay" = true) :
    SecurityGuard.preOperationCheck st "flashpay" = { passed := true } := by
  simp [SecurityGuard.preOperationCheck, SecurityGuard.checkMasterToggle,
    SecurityGuard.checkDomainAccess, REQUIRE_MASTER_ENABLED,
    REQUIRE_DOMAIN_ENABLED, hdom]

/-- C8: when the guard chain passes (rate limit allows, amount and note
validate, the `flashpay` domain is enabled) and the external Payment
Provider call fails, `createPayment` returns the structured failure
`{ success := false, error := the provider error, trackingId := some _ }` —
the embedding is a total function, mirroring the source's catch-all that
converts every provider throw into a returned result — and writes nothing
to the ledger: the payment list is exactly as before the call. -/
theorem createPayment_provider_failure (os : OrchestratorState) (now : Int)
    (amount : ℚ) (note : String) (e : String)
    (hrl : (RateLimiter.check os.rlAttempts CREATE_PAYMENT_LIMIT now).fst.allowed = true)
    (hamount : (InputValidator.validateAmount amount).valid = true)
    (hnote : (InputValidator.validateNote note).valid = true)
    (hdom : os.store.isDomainEnabled "flashpay" = true) :
    (createPayment os now amount note (.error e)).fst.success = false ∧
    (createPayment os now amount note (.error e)).fst.error = some e ∧
    ((createPayment os now amount note (.error e)).fst.trackingId).isSome = true ∧
    (createPayment os now amount note (.error e)).snd.store.payments
      = os.store.payments := by
  unfold createPayment
  simp [hrl, hamount, hnote, preOperationCheck_passes _ hdom, logError]

/-- An orchestrator context over the default `m1` store: no rate-limit
history and no errors logged. -/
def freshOrchestrator : OrchestratorState :=
  { store := freshStore "m1", rlAttempts := [], errorsLogged := 0 }

/-- C8 witness: a valid 5-Pi request in the fresh context whose provider
call fails with a gateway error comes back as a structured failure with
the provider's message and a tracking id, and the ledger stays empty. -/
theorem createPayment_provider_failure_witness :
    (createPayment freshOrchestrator 0 5 "snack"
        (.error "Failed to create payment: Bad Gateway")).fst.success = false ∧
    (createPayment freshOrchestrator 0 5 "snack"
        (.error "Failed to create payment: Bad Gateway")).fst.error
      = some "Failed to create payment: Bad Gateway" ∧
    ((createPayment freshOrchestrator 0 5 "snack"
        (.error "Failed to create payment: Bad Gateway")).fst.trackingId).isSome = true ∧
    (createPayment freshOrchestrator 0 5 "snack"
        (.error "Failed to create payment: Bad Gateway")).snd.store.payments
      = freshOrchestrator.store.payments :=
  createPayment_provider_failure freshOrchestrator 0 5 "snack"
    "Failed to create payment: Bad Gateway"
    (by decide) (by decide) (by decide) (by decide)

end FlashPay
